import Mathlib

/-!
Verification development for the `qe-rs` input-file generator.

The Rust sources under `src/pw/input.rs`, `src/pw/serialize.rs` and
`src/serialize_util.rs` are embedded shallowly below:

* `f64` values are modelled as rationals (`ℚ`); the numeric comparisons in the
  validator (`x <= 0.0`) become `x ≤ 0`.
* Rust's default `Display` formatting of an `f64` (which prints the shortest
  decimal string that round-trips) is modelled by `fmtF64`, the exact decimal
  expansion of the rational (with a fuel cut-off for non-terminating
  expansions); on every decimal-exact value exercised here the two agree.
  Rust's `{:e}` (`LowerExp`) formatting is modelled by `fmtExp`.
* `Vec<String>` line buffers become `List String`; `lines.join("\n")` becomes
  `joinNL`; `Result` becomes `Except`.
* `PathBuf` is modelled by the outcome of its `to_str` conversion: `none`
  stands for a path that is not valid UTF-8.
-/

/-- One decimal digit as a character. -/
def digitChar (n : Nat) : Char :=
  match n with
  | 0 => '0' | 1 => '1' | 2 => '2' | 3 => '3' | 4 => '4'
  | 5 => '5' | 6 => '6' | 7 => '7' | 8 => '8' | _ => '9'

/-- Decimal digits of `n`, most significant first, prepended to `acc`. -/
def natToCharsAux (fuel : Nat) (n : Nat) (acc : List Char) : List Char :=
  match fuel with
  | 0 => acc
  | fuel + 1 =>
    if n < 10 then digitChar n :: acc
    else natToCharsAux fuel (n / 10) (digitChar (n % 10) :: acc)

/-- Decimal rendering of a natural number (Rust `Display` for unsigned integers). -/
def natToStr (n : Nat) : String := String.mk (natToCharsAux (n + 1) n [])

/-- Decimal rendering of an integer. -/
def intToStr (i : Int) : String :=
  if i < 0 then "-" ++ natToStr i.natAbs else natToStr i.natAbs

/-- Digits after the decimal point of `rem / den` (`rem < den`), by long division;
stops when the remainder vanishes, or after `fuel` digits. -/
def fracCharsAux (fuel : Nat) (rem den : Nat) : List Char :=
  match fuel with
  | 0 => []
  | fuel + 1 =>
    if rem = 0 then []
    else digitChar (rem * 10 / den) :: fracCharsAux fuel (rem * 10 % den) den

/-- Model of Rust's default `Display` form of an `f64`: the exact decimal
expansion of the rational, with no decimal point for integral values. -/
def fmtF64 (q : ℚ) : String :=
  let n := q.num.natAbs
  let d := q.den
  let sign := if q < 0 then "-" else ""
  let fracPart := fracCharsAux 64 (n % d) d
  sign ++ natToStr (n / d) ++ (if fracPart.isEmpty then "" else "." ++ String.mk fracPart)

/-- Multiply by ten until the value reaches `[1, ∞)`, tracking the exponent. -/
def expScaleUp (fuel : Nat) (q : ℚ) (e : Int) : ℚ × Int :=
  match fuel with
  | 0 => (q, e)
  | fuel + 1 => if q < 1 then expScaleUp fuel (q * 10) (e - 1) else (q, e)

/-- Divide by ten until the value drops below ten, tracking the exponent. -/
def expScaleDown (fuel : Nat) (q : ℚ) (e : Int) : ℚ × Int :=
  match fuel with
  | 0 => (q, e)
  | fuel + 1 => if 10 ≤ q then expScaleDown fuel (q / 10) (e + 1) else (q, e)

/-- Model of Rust's `{:e}` (`LowerExp`) form of an `f64`: mantissa in `[1, 10)`
followed by `e` and the decimal exponent, `0e0` for zero. -/
def fmtExp (q : ℚ) : String :=
  if q = 0 then "0e0"
  else
    let sign := if q < 0 then "-" else ""
    let a := |q|
    let me := if a < 1 then expScaleUp 4096 a 0 else expScaleDown 4096 a 0
    sign ++ fmtF64 me.1 ++ "e" ++ intToStr me.2

/-- `Vec::join("\n")`. -/
def joinNL : List String → String
  | [] => ""
  | [s] => s
  | s :: rest => s ++ "\n" ++ joinNL rest

/-- Split a character list at newline characters. -/
def splitLinesAux : List Char → List Char → List (List Char)
  | [], acc => [acc.reverse]
  | c :: cs, acc =>
    if c = '\n' then acc.reverse :: splitLinesAux cs []
    else splitLinesAux cs (c :: acc)

/-- The lines of a string (maximal newline-free segments). -/
def strLines (s : String) : List String :=
  (splitLinesAux s.data []).map String.mk

/-! ## Data model (from `src/pw/input.rs`) -/

/-- Component triples: `[bool; 3]`, `[u64; 3]`, `[f64; 3]`, `[f64; 4]`. -/
abbrev B3 := Bool × Bool × Bool

/-- A `[u64; 3]` value. -/
abbrev N3 := Nat × Nat × Nat

/-- A `[f64; 3]` value. -/
abbrev Q3 := ℚ × ℚ × ℚ

/-- A `[f64; 4]` value (k-point with weight). -/
abbrev K4 := ℚ × ℚ × ℚ × ℚ

/-- `std::path::PathBuf`, modelled by the outcome of `to_str`:
`toStr = none` is a path that is not representable as UTF-8. -/
structure PathBuf where
  toStr : Option String
deriving DecidableEq

/-- `Calculation` (source `src/pw/input.rs`). -/
inductive Calculation where
  | Scf (conv_thr : ℚ)
  | Nscf (diago_thr_init : ℚ) (nbnd : Option Nat) (nosym : Option Bool)
  | Bands (diago_thr_init : ℚ) (nbnd : Option Nat) (nosym : Option Bool)
deriving DecidableEq

/-- `RestartMode`. -/
inductive RestartMode where
  | FromScratch
  | Restart
deriving DecidableEq

/-- `DiskIO`. -/
inductive DiskIO where
  | Low
  | Medium
  | High
  | NoDiskIO
deriving DecidableEq

/-- `Control` (the `prefix` field is spelled `prefix_` here because `prefix`
is reserved in Lean). -/
structure Control where
  restart_mode : Option RestartMode
  disk_io : Option DiskIO
  wf_collect : Option Bool
  pseudo_dir : Option PathBuf
  out_dir : Option PathBuf
  prefix_ : Option String
deriving DecidableEq

/-- `LatticeUnits`. -/
inductive LatticeUnits where
  | Bohr
  | Angstrom
  | Alat
deriving DecidableEq

/-- `Cell`: lattice units plus an explicit 3×3 cell matrix (three row vectors). -/
structure Cell where
  units : LatticeUnits
  cell : Q3 × Q3 × Q3
deriving DecidableEq

/-- `Ibrav`: only the free (`ibrav = 0`) variant is implemented in the source. -/
inductive Ibrav where
  | Free (cell : Cell)
deriving DecidableEq

/-- `Smearing`. -/
inductive Smearing where
  | Gaussian
  | MethfesselPaxton
  | MarzariVanderbilt
  | FermiDirac
deriving DecidableEq

/-- `Occupations`. -/
inductive Occupations where
  | Smearing (kind : Smearing) (degauss : ℚ)
  | Tetrahedra
  | TetrahedraLin
  | TetrahedraOpt
  | Fixed
deriving DecidableEq

/-- `SpinType`. -/
inductive SpinType where
  | NonPolarized
  | CollinearPolarized
  | Noncollinear (spin_orbit : Bool)
deriving DecidableEq

/-- `System`. -/
structure System where
  ibrav : Ibrav
  alat : ℚ
  ecutwfc : ℚ
  ecutrho : ℚ
  occupations : Occupations
  spin_type : Option SpinType
deriving DecidableEq

/-- `LatticeDirection`. -/
inductive LatticeDirection where
  | D1
  | D2
  | D3
deriving DecidableEq

/-- `Efield`: the five sawtooth-field parameters, bundled. -/
inductive Efield where
  | TeField (dipfield : Bool) (edir : LatticeDirection)
      (emaxpos : ℚ) (eopreg : ℚ) (eamp : ℚ)
deriving DecidableEq

/-- `StartingWfc`. -/
inductive StartingWfc where
  | Atomic
  | AtomicPlusRandom
  | Random
  | File
deriving DecidableEq

/-- `Diagonalization`. -/
inductive Diagonalization where
  | David
  | Cg
deriving DecidableEq

/-- `Electrons`. -/
structure Electrons where
  startingwfc : Option StartingWfc
  diagonalization : Option Diagonalization
deriving DecidableEq

/-- `Species`. -/
structure Species where
  label : String
  mass : ℚ
  pseudopotential_filename : String
deriving DecidableEq

/-- `PositionCoordinateType`. -/
inductive PositionCoordinateType where
  | AlatCartesian
  | BohrCartesian
  | AngstromCartesian
  | Crystal
  | CrystalSG
deriving DecidableEq

/-- `AtomCoordinate`. -/
structure AtomCoordinate where
  species : String
  r : Q3
  if_pos : Option B3
deriving DecidableEq

/-- `Positions`. -/
structure Positions where
  coordinate_type : PositionCoordinateType
  coordinates : List AtomCoordinate
deriving DecidableEq

/-- `KPoints`. -/
inductive KPoints where
  | Crystal (points : List K4)
  | CrystalUniform (nk : N3)
  | Automatic (nk : N3) (sk : Option B3)
  | CrystalBands (nk_per_panel : Nat) (panel_bounds : List Q3)
deriving DecidableEq

/-- `Input`: the full Program-A configuration. -/
structure Input where
  calculation : Calculation
  control : Control
  system : System
  efield : Option Efield
  electrons : Electrons
  species : List Species
  atomic_positions : Positions
  k_points : KPoints
deriving DecidableEq

/-! ## k-point generation and validation (from `src/pw/input.rs`) -/

/-- `generate_uniform_kpoints`: triple loop, first index slowest, third fastest,
pushing `[k0/nk0, k1/nk1, k2/nk2]`. -/
def generate_uniform_kpoints (nk : N3) : List Q3 :=
  (List.range nk.1).flatMap fun (k0 : Nat) =>
    (List.range nk.2.1).flatMap fun (k1 : Nat) =>
      (List.range nk.2.2).map fun (k2 : Nat) =>
        ((k0 : ℚ) / (nk.1 : ℚ), (k1 : ℚ) / (nk.2.1 : ℚ), (k2 : ℚ) / (nk.2.2 : ℚ))

/-- `pw::input::Error`: one variant per violated invariant. -/
inductive InputError where
  | LatticeConstant (alat : ℚ)
  | ConvThr (conv_thr : ℚ)
  | DiagoThrInit (diago_thr_init : ℚ)
  | Ecutwfc (ecutwfc : ℚ)
  | Ecutrho (ecutrho : ℚ)
  | Smearing (degauss : ℚ)
  | Mass (label : String) (mass : ℚ)
  | Species (label : String)
deriving DecidableEq

/-- `error::ErrorList` specialised to `pw::input::Error`. -/
structure ErrorList where
  errs : List InputError
deriving DecidableEq

/-- The species-mass check loop of `validate`: one error per offending species,
in sequence order. -/
def massErrors : List Species → List InputError
  | [] => []
  | s :: rest =>
    (if s.mass ≤ 0 then [InputError.Mass s.label s.mass] else []) ++ massErrors rest

/-- The threshold check of `validate`: `conv_thr` for `Scf`, `diago_thr_init`
for `Nscf` and `Bands`. -/
def calcErrors : Calculation → List InputError
  | .Scf conv_thr =>
    if conv_thr ≤ 0 then [InputError.ConvThr conv_thr] else []
  | .Nscf diago_thr_init _ _ | .Bands diago_thr_init _ _ =>
    if diago_thr_init ≤ 0 then [InputError.DiagoThrInit diago_thr_init] else []

/-- The smearing check of `validate`: `degauss` is checked only for the
`Smearing` occupations variant. -/
def degaussErrors : Occupations → List InputError
  | .Smearing _ degauss =>
    if degauss ≤ 0 then [InputError.Smearing degauss] else []
  | _ => []

/-- The error list accumulated by `validate`, in source check order:
`alat`, active threshold, `ecutwfc`, `ecutrho`, `degauss` (Smearing only),
then the species masses. -/
def validationErrors (input : Input) : List InputError :=
  let system := input.system
  (if system.alat ≤ 0 then [InputError.LatticeConstant system.alat] else [])
    ++ calcErrors input.calculation
    ++ (if system.ecutwfc ≤ 0 then [InputError.Ecutwfc system.ecutwfc] else [])
    ++ (if system.ecutrho ≤ 0 then [InputError.Ecutrho system.ecutrho] else [])
    ++ degaussErrors system.occupations
    ++ massErrors input.species

/-- `pw::input::validate`: accumulate every violated rule; `Ok(())` iff the
accumulated list is empty. -/
def validate (input : Input) : Except ErrorList Unit :=
  if (validationErrors input).length = 0 then .ok ()
  else .error ⟨validationErrors input⟩

/-! ## Renderer (from `src/pw/serialize.rs` and `src/serialize_util.rs`) -/

/-- `pw::serialize::Error` (the `Io` variant is out of scope: `make_input_file`
never produces it). -/
inductive SerializeError where
  | Input (errs : ErrorList)
  | PseudoDir
  | OutDir
deriving DecidableEq

/-- `push_bool_field` (`src/serialize_util.rs`, duplicated in
`src/pw/serialize.rs`): append nothing for `None`, one `    name=token,` line
for `Some`, with the namelist tokens `.true.` / `.false.`. -/
def push_bool_field (lines : List String) (name : String) (b : Option Bool) : List String :=
  match b with
  | none => lines
  | some b =>
    lines ++ ["    " ++ name ++ "=" ++ (if b then ".true." else ".false.") ++ ","]

/-- Append one line derived from an optional field, if present (the
`if let Some(x) = field { lines.push(...) }` pattern of the source). -/
def optLine {α : Type} (lines : List String) (o : Option α) (f : α → String) : List String :=
  match o with
  | none => lines
  | some x => lines ++ [f x]

/-- Append one `    name='path',` line for an optional path field, failing with
`err` when the path is not valid UTF-8 (the `path.to_str().ok_or(err)?` pattern). -/
def pathField (lines : List String) (name : String) (err : SerializeError)
    (p : Option PathBuf) : Except SerializeError (List String) :=
  match p with
  | none => .ok lines
  | some pb =>
    match pb.toStr with
    | none => .error err
    | some path => .ok (lines ++ ["    " ++ name ++ "='" ++ path ++ "',"])

/-- `render_bool_list`: `1`/`0` tokens joined by spaces. -/
def render_bool_list (xs : B3) : String :=
  (if xs.1 then "1" else "0") ++ " " ++ (if xs.2.1 then "1" else "0")
    ++ " " ++ (if xs.2.2 then "1" else "0")

/-- `Field::value` for `Calculation`. -/
def calculationValue : Calculation → String
  | .Scf _ => "scf"
  | .Nscf _ _ _ => "nscf"
  | .Bands _ _ _ => "bands"

/-- `Field::value` for `RestartMode`. -/
def restartModeValue : RestartMode → String
  | .FromScratch => "from_scratch"
  | .Restart => "restart"

/-- `Field::value` for `DiskIO`. -/
def diskIOValue : DiskIO → String
  | .Low => "low"
  | .Medium => "medium"
  | .High => "high"
  | DiskIO.NoDiskIO => "none"

/-- `Field::value` for `LatticeDirection`. -/
def latticeDirectionValue : LatticeDirection → String
  | .D1 => "1"
  | .D2 => "2"
  | .D3 => "3"

/-- `Field::value` for `Ibrav`. -/
def ibravValue : Ibrav → String
  | .Free _ => "0"

/-- `Field::value` for `Occupations`. -/
def occupationsValue : Occupations → String
  | .Smearing _ _ => "smearing"
  | .Tetrahedra => "tetrahedra"
  | .TetrahedraLin => "tetrahedra_lin"
  | .TetrahedraOpt => "tetrahedra_opt"
  | .Fixed => "fixed"

/-- `Field::value` for `StartingWfc`. -/
def startingWfcValue : StartingWfc → String
  | .Atomic => "atomic"
  | .AtomicPlusRandom => "atomic+random"
  | .Random => "random"
  | .File => "file"

/-- `Field::value` for `Diagonalization`. -/
def diagonalizationValue : Diagonalization → String
  | .David => "david"
  | .Cg => "cg"

/-- `Field::value` for `LatticeUnits`. -/
def latticeUnitsValue : LatticeUnits → String
  | .Bohr => "bohr"
  | .Angstrom => "angstrom"
  | .Alat => "alat"

/-- `Field::value` for `PositionCoordinateType`. -/
def positionCoordinateTypeValue : PositionCoordinateType → String
  | .AlatCartesian => "alat"
  | .BohrCartesian => "bohr"
  | .AngstromCartesian => "angstrom"
  | .Crystal => "crystal"
  | .CrystalSG => "crystal_sg"

/-- `Field::value` for `KPoints`. -/
def kPointsValue : KPoints → String
  | .Crystal _ => "crystal"
  | .CrystalUniform _ => "crystal"
  | .Automatic _ _ => "automatic"
  | .CrystalBands _ _ => "crystal_b"

/-- The lines pushed by `make_control`, in source order; path fields can fail. -/
def makeControlLines (input : Input) : Except SerializeError (List String) :=
  let l0 := [" &control", "    calculation='" ++ calculationValue input.calculation ++ "',"]
  let l1 := optLine l0 input.control.restart_mode
    (fun rm => "    restart_mode='" ++ restartModeValue rm ++ "',")
  let l2 := optLine l1 input.control.disk_io
    (fun d => "    disk_io='" ++ diskIOValue d ++ "',")
  let l3 := push_bool_field l2 "wf_collect" input.control.wf_collect
  match pathField l3 "pseudo_dir" SerializeError.PseudoDir input.control.pseudo_dir with
  | .error e => .error e
  | .ok l4 =>
    match pathField l4 "out_dir" SerializeError.OutDir input.control.out_dir with
    | .error e => .error e
    | .ok l5 =>
      let l6 := match input.efield with
        | some (.TeField dipfield _ _ _ _) =>
          push_bool_field (push_bool_field l5 "tefield" (some true)) "dipfield" (some dipfield)
        | none => l5
      let l7 := optLine l6 input.control.prefix_
        (fun p => "    prefix='" ++ p ++ "',")
      .ok (l7 ++ [" /"])

/-- The lines pushed by `make_system`, in source order; `nat` and `ntyp` are
computed from the sequence lengths at render time. -/
def makeSystemLines (input : Input) : List String :=
  let system := input.system
  let l0 := [" &system",
    "    ibrav=" ++ ibravValue system.ibrav ++ ",",
    "    celldm(1)=" ++ fmtF64 system.alat ++ ",",
    "    nat=" ++ natToStr input.atomic_positions.coordinates.length ++ ",",
    "    ntyp=" ++ natToStr input.species.length ++ ",",
    "    ecutwfc=" ++ fmtF64 system.ecutwfc ++ ",",
    "    ecutrho=" ++ fmtF64 system.ecutrho ++ ",",
    "    occupations='" ++ occupationsValue system.occupations ++ "',"]
  let l1 := match system.spin_type with
    | none => l0
    | some .NonPolarized => l0 ++ ["    nspin=1,"]
    | some .CollinearPolarized => l0 ++ ["    nspin=2,"]
    | some (.Noncollinear spin_orbit) =>
      push_bool_field (l0 ++ ["    noncolin=.true.,"]) "lspinorb" (some spin_orbit)
  let l2 := match input.efield with
    | some (.TeField _ edir emaxpos eopreg eamp) =>
      l1 ++ ["    edir=" ++ latticeDirectionValue edir ++ ",",
             "    emaxpos=" ++ fmtF64 emaxpos ++ ",",
             "    eopreg=" ++ fmtF64 eopreg ++ ",",
             "    eamp=" ++ fmtExp eamp ++ ","]
    | none => l1
  l2 ++ [" /"]

/-- The lines pushed by `make_electrons`: the convergence threshold of the
active calculation is rendered in exponent form. -/
def makeElectronsLines (input : Input) : List String :=
  let l0 := [" &electrons"]
  let l1 := optLine l0 input.electrons.startingwfc
    (fun s => "    startingwfc='" ++ startingWfcValue s ++ "',")
  let l2 := optLine l1 input.electrons.diagonalization
    (fun d => "    diagonalization='" ++ diagonalizationValue d ++ "',")
  let l3 := match input.calculation with
    | .Scf conv_thr => l2 ++ ["    conv_thr=" ++ fmtExp conv_thr ++ ","]
    | .Nscf diago_thr_init _ _ | .Bands diago_thr_init _ _ =>
      l2 ++ ["    diago_thr_init=" ++ fmtExp diago_thr_init ++ ","]
  l3 ++ [" /"]

/-- One `ATOMIC_SPECIES` record line. -/
def speciesLine (s : Species) : String :=
  " " ++ s.label ++ " " ++ fmtF64 s.mass ++ " " ++ s.pseudopotential_filename

/-- The lines pushed by `make_species`. -/
def makeSpeciesLines (input : Input) : List String :=
  "ATOMIC_SPECIES" :: input.species.map speciesLine

/-- One `CELL_PARAMETERS` row. -/
def cellRow (v : Q3) : String :=
  " " ++ fmtF64 v.1 ++ " " ++ fmtF64 v.2.1 ++ " " ++ fmtF64 v.2.2

/-- The lines pushed by `make_cell` (always `Some` for the free lattice variant). -/
def makeCellLines (input : Input) : Option (List String) :=
  match input.system.ibrav with
  | .Free cell =>
    some (["CELL_PARAMETERS " ++ latticeUnitsValue cell.units,
           cellRow cell.cell.1, cellRow cell.cell.2.1, cellRow cell.cell.2.2])

/-- One `ATOMIC_POSITIONS` record line. -/
def positionLine (coord : AtomCoordinate) : String :=
  match coord.if_pos with
  | some ip =>
    " " ++ coord.species ++ " " ++ fmtF64 coord.r.1 ++ " " ++ fmtF64 coord.r.2.1
      ++ " " ++ fmtF64 coord.r.2.2 ++ " " ++ render_bool_list ip
  | none =>
    " " ++ coord.species ++ " " ++ fmtF64 coord.r.1 ++ " " ++ fmtF64 coord.r.2.1
      ++ " " ++ fmtF64 coord.r.2.2

/-- The lines pushed by `make_positions`. -/
def makePositionsLines (input : Input) : List String :=
  ("ATOMIC_POSITIONS " ++ positionCoordinateTypeValue input.atomic_positions.coordinate_type)
    :: input.atomic_positions.coordinates.map positionLine

/-- The lines pushed by `make_k_points`: one branch per `KPoints` variant. -/
def makeKPointsLines (input : Input) : List String :=
  ("K_POINTS " ++ kPointsValue input.k_points) ::
  match input.k_points with
  | .Crystal k_points =>
    natToStr k_points.length ::
      k_points.map (fun kw =>
        fmtF64 kw.1 ++ " " ++ fmtF64 kw.2.1 ++ " " ++ fmtF64 kw.2.2.1
          ++ " " ++ fmtF64 kw.2.2.2)
  | .CrystalUniform nk =>
    let k_points := generate_uniform_kpoints nk
    let weight := 1 / (k_points.length : ℚ)
    natToStr k_points.length ::
      k_points.map (fun k =>
        fmtF64 k.1 ++ " " ++ fmtF64 k.2.1 ++ " " ++ fmtF64 k.2.2 ++ " " ++ fmtF64 weight)
  | .Automatic nk sk =>
    let sk_str := match sk with
      | some sk => render_bool_list sk
      | none => render_bool_list (false, false, false)
    [natToStr nk.1 ++ " " ++ natToStr nk.2.1 ++ " " ++ natToStr nk.2.2 ++ " " ++ sk_str]
  | .CrystalBands nk_per_panel panel_bounds =>
    natToStr panel_bounds.length ::
      panel_bounds.map (fun k =>
        fmtF64 k.1 ++ " " ++ fmtF64 k.2.1 ++ " " ++ fmtF64 k.2.2
          ++ " " ++ natToStr nk_per_panel)

/-- `pw::serialize::make_input_file`: validate first, then join the sections
with newline separators. -/
def make_input_file (input : Input) : Except SerializeError String :=
  match validate input with
  | .error errs => .error (SerializeError.Input errs)
  | .ok _ =>
    match makeControlLines input with
    | .error e => .error e
    | .ok controlLines =>
      let control := joinNL controlLines
      let system := joinNL (makeSystemLines input)
      let electrons := joinNL (makeElectronsLines input)
      let species := joinNL (makeSpeciesLines input)
      let cell := (makeCellLines input).map joinNL
      let positions := joinNL (makePositionsLines input)
      let k_points := joinNL (makeKPointsLines input)
      let input_sections := [control, system, electrons, species]
        ++ (match cell with | some c => [c] | none => [])
        ++ [positions, k_points]
      .ok (joinNL input_sections)

/-- The lines of the rendered input file (empty on failure). -/
def outLines (input : Input) : List String :=
  match make_input_file input with
  | .ok s => strLines s
  | .error _ => []

/-! ## Concrete configurations used by the claims -/

/-- The minimal valid Scf configuration of the end-to-end scenario:
`alat = 3.0`, `ecutwfc = 60.0`, `ecutrho = 240.0`, one species `Fe` with mass
55.845, one crystal-coordinate atom at the origin, automatic k-points
`[8, 8, 8]` with no shift. -/
def c1Input : Input where
  calculation := .Scf (1 / 100000000)
  control :=
    { restart_mode := none, disk_io := none, wf_collect := none
      pseudo_dir := none, out_dir := none, prefix_ := none }
  system :=
    { ibrav := .Free { units := .Alat, cell := ((1, 0, 0), (0, 1, 0), (0, 0, 1)) }
      alat := 3, ecutwfc := 60, ecutrho := 240
      occupations := .Tetrahedra, spin_type := none }
  efield := none
  electrons := { startingwfc := none, diagonalization := none }
  species := [{ label := "Fe", mass := 55.845, pseudopotential_filename := "Fe.UPF" }]
  atomic_positions :=
    { coordinate_type := .Crystal
      coordinates := [{ species := "Fe", r := (0, 0, 0), if_pos := none }] }
  k_points := .Automatic (8, 8, 8) none

/-! ## Spec-side predicates and generic helpers -/

/-- Whether a computation succeeded. -/
def isOkE {ε α : Type} : Except ε α → Bool
  | .ok _ => true
  | .error _ => false

/-- The active calculation's threshold field is positive: `conv_thr` for `Scf`,
`diago_thr_init` for `Nscf` and `Bands`. -/
def calcThresholdPos : Calculation → Prop
  | .Scf conv_thr => 0 < conv_thr
  | .Nscf diago_thr_init _ _ => 0 < diago_thr_init
  | .Bands diago_thr_init _ _ => 0 < diago_thr_init

instance : (c : Calculation) → Decidable (calcThresholdPos c)
  | .Scf ct => inferInstanceAs (Decidable (0 < ct))
  | .Nscf d _ _ => inferInstanceAs (Decidable (0 < d))
  | .Bands d _ _ => inferInstanceAs (Decidable (0 < d))

/-- `degauss` is positive whenever the `Smearing` occupations variant is chosen
(vacuously true otherwise). -/
def degaussPos : Occupations → Prop
  | .Smearing _ degauss => 0 < degauss
  | _ => True

instance : (o : Occupations) → Decidable (degaussPos o)
  | .Smearing _ d => inferInstanceAs (Decidable (0 < d))
  | .Tetrahedra => inferInstanceAs (Decidable True)
  | .TetrahedraLin => inferInstanceAs (Decidable True)
  | .TetrahedraOpt => inferInstanceAs (Decidable True)
  | .Fixed => inferInstanceAs (Decidable True)

theorem mem_optLine {α : Type} {x : String} {l : List String} (o : Option α)
    (f : α → String) (h : x ∈ l) : x ∈ optLine l o f := by
  cases o <;> simp [optLine, h]

theorem mem_push_bool_field {x : String} {l : List String} (name : String)
    (b : Option Bool) (h : x ∈ l) : x ∈ push_bool_field l name b := by
  cases b <;> simp [push_bool_field, h]

/-- Every `makeSystemLines` result extends the eight unconditional header
lines: membership in those eight lines is membership in the section. -/
theorem mem_makeSystemLines_of_base {i : Input} {x : String}
    (h : x ∈ ([" &system",
      "    ibrav=" ++ ibravValue i.system.ibrav ++ ",",
      "    celldm(1)=" ++ fmtF64 i.system.alat ++ ",",
      "    nat=" ++ natToStr i.atomic_positions.coordinates.length ++ ",",
      "    ntyp=" ++ natToStr i.species.length ++ ",",
      "    ecutwfc=" ++ fmtF64 i.system.ecutwfc ++ ",",
      "    ecutrho=" ++ fmtF64 i.system.ecutrho ++ ",",
      "    occupations='" ++ occupationsValue i.system.occupations ++ "',"] : List String)) :
    x ∈ makeSystemLines i := by
  unfold makeSystemLines
  apply List.mem_append_left
  rcases i.efield with _ | ef
  · rcases i.system.spin_type with _ | st
    · exact h
    · rcases st with _ | _ | so
      · exact List.mem_append_left _ h
      · exact List.mem_append_left _ h
      · exact mem_push_bool_field _ _ (List.mem_append_left _ h)
  · rcases ef with ⟨d, e, emax, eop, ea⟩
    apply List.mem_append_left
    rcases i.system.spin_type with _ | st
    · exact h
    · rcases st with _ | _ | so
      · exact List.mem_append_left _ h
      · exact List.mem_append_left _ h
      · exact mem_push_bool_field _ _ (List.mem_append_left _ h)

/-! ## Claims -/

/-- C8: `push_bool_field` appends zero lines for `None` and exactly one line
`    name=.true.,` or `    name=.false.,` (the namelist tokens, never `0`/`1`)
for `Some`; in particular `push_bool_field("flag", None)` appends nothing and
`push_bool_field("flag", Some(true))` appends the true-token line for `flag`. -/
theorem c8_push_bool_field (lines : List String) (name : String) :
    push_bool_field lines name none = lines
    ∧ (∀ b : Bool, push_bool_field lines name (some b)
        = lines ++ ["    " ++ name ++ "=" ++ (if b then ".true." else ".false.") ++ ","])
    ∧ push_bool_field lines "flag" none = lines
    ∧ push_bool_field lines "flag" (some true) = lines ++ ["    flag=.true.,"] :=
  ⟨rfl, fun b => by cases b <;> rfl, rfl, rfl⟩

/-- C9: `validate` reads only the `calculation`, `system` and `species` fields;
two inputs agreeing on those three fields validate identically, whatever their
`control`, `efield`, `electrons`, `atomic_positions` and `k_points`. -/
theorem c9_validate_projection (i j : Input)
    (h1 : i.calculation = j.calculation) (h2 : i.system = j.system)
    (h3 : i.species = j.species) : validate i = validate j := by
  unfold validate validationErrors
  rw [h1, h2, h3]

/-- Witness for C9 at two concrete inputs differing in `control` and `k_points`. -/
theorem c9_validate_projection_witness :
    validate c1Input
      = validate { c1Input with
          control := { restart_mode := some .FromScratch, disk_io := some .Low
                       wf_collect := some true, pseudo_dir := none
                       out_dir := none, prefix_ := some "x" }
          k_points := .CrystalUniform (4, 4, 4) } :=
  c9_validate_projection _ _ rfl rfl rfl

/-- C10: an `Automatic` k-point grid with an absent shift renders byte-identically
to the same grid with an explicit all-false shift. -/
theorem c10_automatic_shift_default (i : Input) (nk : N3)
    (h : i.k_points = .Automatic nk none) :
    make_input_file { i with k_points := .Automatic nk (some (false, false, false)) }
      = make_input_file i := by
  cases i
  dsimp only at h
  subst h
  rfl

/-- Witness for C10 at the concrete scenario configuration. -/
theorem c10_automatic_shift_default_witness :
    make_input_file { c1Input with k_points := .Automatic (8, 8, 8) (some (false, false, false)) }
      = make_input_file c1Input :=
  c10_automatic_shift_default c1Input (8, 8, 8) rfl

/-- C1: the minimal valid Scf configuration renders successfully, its output
contains the control line `calculation='scf'`, the system lines `ibrav=0,`,
`celldm(1)=3,`, `nat=1,`, `ntyp=1,`, the `ATOMIC_SPECIES` header with the
single Fe record, the `ATOMIC_POSITIONS crystal` header with the single
coordinate record, and the `K_POINTS automatic` line `8 8 8 0 0 0`; moreover,
on every input the rendered `nat` and `ntyp` equal the lengths of the
`atomic_positions.coordinates` and `species` sequences. -/
theorem c1_end_to_end_scf_render :
    isOkE (make_input_file c1Input) = true
    ∧ "    calculation='scf'," ∈ outLines c1Input
    ∧ "    ibrav=0," ∈ outLines c1Input
    ∧ "    celldm(1)=3," ∈ outLines c1Input
    ∧ "    nat=1," ∈ outLines c1Input
    ∧ "    ntyp=1," ∈ outLines c1Input
    ∧ "ATOMIC_SPECIES" ∈ outLines c1Input
    ∧ " Fe 55.845 Fe.UPF" ∈ outLines c1Input
    ∧ "ATOMIC_POSITIONS crystal" ∈ outLines c1Input
    ∧ " Fe 0 0 0" ∈ outLines c1Input
    ∧ "K_POINTS automatic" ∈ outLines c1Input
    ∧ "8 8 8 0 0 0" ∈ outLines c1Input
    ∧ (∀ i : Input,
        ("    nat=" ++ natToStr i.atomic_positions.coordinates.length ++ ",")
            ∈ makeSystemLines i
        ∧ ("    ntyp=" ++ natToStr i.species.length ++ ",") ∈ makeSystemLines i) := by
  refine ⟨by with_unfolding_all decide, by with_unfolding_all decide,
    by with_unfolding_all decide, by with_unfolding_all decide,
    by with_unfolding_all decide, by with_unfolding_all decide,
    by with_unfolding_all decide, by with_unfolding_all decide,
    by with_unfolding_all decide, by with_unfolding_all decide,
    by with_unfolding_all decide, by with_unfolding_all decide, fun i => ⟨?_, ?_⟩⟩
  · exact mem_makeSystemLines_of_base (by simp)
  · exact mem_makeSystemLines_of_base (by simp)

/-! ## C5: uniform-grid k-point expansion -/

theorem length_flatMap_range {α : Type} (n m : Nat) (f : Nat → List α)
    (h : ∀ k, (f k).length = m) : ((List.range n).flatMap f).length = n * m := by
  rw [List.length_flatMap]
  have hrep : List.map (List.length ∘ f) (List.range n) = List.replicate n m := by
    apply List.eq_replicate_iff.mpr
    refine ⟨by simp, ?_⟩
    intro b hb
    simp only [List.mem_map, List.mem_range, Function.comp_apply] at hb
    obtain ⟨k, -, hk⟩ := hb
    rw [← hk]
    exact h k
  rw [hrep, List.sum_replicate, smul_eq_mul]

theorem grid_index_lt {k1 n1 k2 n2 : Nat} (h1 : k1 < n1) (h2 : k2 < n2) :
    k1 * n2 + k2 < n1 * n2 :=
  calc k1 * n2 + k2 < k1 * n2 + n2 := Nat.add_lt_add_left h2 _
    _ = (k1 + 1) * n2 := (Nat.succ_mul k1 n2).symm
    _ ≤ n1 * n2 := Nat.mul_le_mul_right n2 h1

theorem getElem?_flatMap_range {α : Type} (m : Nat) (f : Nat → List α)
    (h : ∀ k, (f k).length = m) :
    ∀ n k j, k < n → j < m → ((List.range n).flatMap f)[k * m + j]? = (f k)[j]? := by
  intro n
  induction n with
  | zero => exact fun k j hk _ => absurd hk (Nat.not_lt_zero k)
  | succ n ih =>
    intro k j hk hj
    rw [List.range_succ, List.flatMap_append]
    have hlen : ((List.range n).flatMap f).length = n * m := length_flatMap_range n m f h
    rw [List.getElem?_append]
    by_cases hkn : k < n
    · rw [if_pos (by rw [hlen]; exact grid_index_lt hkn hj)]
      exact ih k j hkn hj
    · have hk' : k = n := by omega
      rw [hk', if_neg (by rw [hlen]; exact Nat.not_lt.mpr (Nat.le_add_right (n * m) j))]
      have hsub : n * m + j - ((List.range n).flatMap f).length = j := by
        rw [hlen]; omega
      rw [hsub]
      simp

/-- The concrete scenario configuration with a `CrystalUniform [2, 1, 1]` grid. -/
def c5Input : Input := { c1Input with k_points := .CrystalUniform (2, 1, 1) }

/-- C5: the uniform-grid expansion of `(n0, n1, n2)` has exactly `n0 * n1 * n2`
points; the point at flat index `k0 * (n1 * n2) + k1 * n2 + k2` (first index
slowest, third fastest) is `(k0 / n0, k1 / n1, k2 / n2)`; concretely,
`nk = [2, 1, 1]` renders exactly the two points `0 0 0` and `0.5 0 0`, each
with weight `0.5`. -/
theorem c5_uniform_kpoints :
    (∀ n0 n1 n2 : Nat, (generate_uniform_kpoints (n0, n1, n2)).length = n0 * n1 * n2)
    ∧ (∀ n0 n1 n2 k0 k1 k2 : Nat, k0 < n0 → k1 < n1 → k2 < n2 →
        (generate_uniform_kpoints (n0, n1, n2))[k0 * (n1 * n2) + k1 * n2 + k2]?
          = some ((k0 : ℚ) / (n0 : ℚ), (k1 : ℚ) / (n1 : ℚ), (k2 : ℚ) / (n2 : ℚ)))
    ∧ generate_uniform_kpoints (2, 1, 1) = [(0, 0, 0), (1 / 2, 0, 0)]
    ∧ makeKPointsLines c5Input = ["K_POINTS crystal", "2", "0 0 0 0.5", "0.5 0 0 0.5"] := by
  refine ⟨?_, ?_, by with_unfolding_all decide, by with_unfolding_all decide⟩
  · intro n0 n1 n2
    unfold generate_uniform_kpoints
    have hinner : ∀ k0 : Nat,
        ((List.range n1).flatMap fun (k1 : Nat) =>
          (List.range n2).map fun (k2 : Nat) =>
            (((k0 : ℚ) / (n0 : ℚ), (k1 : ℚ) / (n1 : ℚ), (k2 : ℚ) / (n2 : ℚ)) : Q3)).length
          = n1 * n2 := fun k0 =>
      length_flatMap_range n1 n2 _ (fun k1 => by simp)
    rw [length_flatMap_range n0 (n1 * n2) _ hinner, Nat.mul_assoc]
  · intro n0 n1 n2 k0 k1 k2 h0 h1 h2
    unfold generate_uniform_kpoints
    have hinner : ∀ k0 : Nat,
        ((List.range n1).flatMap fun (k1 : Nat) =>
          (List.range n2).map fun (k2 : Nat) =>
            (((k0 : ℚ) / (n0 : ℚ), (k1 : ℚ) / (n1 : ℚ), (k2 : ℚ) / (n2 : ℚ)) : Q3)).length
          = n1 * n2 := fun k0 =>
      length_flatMap_range n1 n2 _ (fun k1 => by simp)
    rw [Nat.add_assoc]
    rw [getElem?_flatMap_range (n1 * n2) _ hinner n0 k0 (k1 * n2 + k2) h0
      (grid_index_lt h1 h2)]
    have hmaplen : ∀ k1 : Nat,
        ((List.range n2).map fun (k2 : Nat) =>
          (((k0 : ℚ) / (n0 : ℚ), (k1 : ℚ) / (n1 : ℚ), (k2 : ℚ) / (n2 : ℚ)) : Q3)).length
          = n2 := fun k1 => by simp
    rw [getElem?_flatMap_range n2 _ hmaplen n1 k1 k2 h1 h2]
    simp [List.getElem?_range, h2]

/-- Witness for C5 at the grid `(2, 1, 1)`, index `(1, 0, 0)`. -/
theorem c5_uniform_kpoints_witness :
    (generate_uniform_kpoints (2, 1, 1))[1 * (1 * 1) + 0 * 1 + 0]?
      = some ((1 : ℚ) / (2 : ℚ), (0 : ℚ) / (1 : ℚ), (0 : ℚ) / (1 : ℚ)) :=
  c5_uniform_kpoints.2.1 2 1 1 1 0 0 (by decide) (by decide) (by decide)

/-! ## C2, C3, C4: validation -/

theorem ite_singleton_eq_nil {α : Type} (c : Prop) [Decidable c] (x : α) :
    (if c then [x] else []) = [] ↔ ¬c := by
  split <;> simp_all

theorem massErrors_eq_nil_iff (l : List Species) :
    massErrors l = [] ↔ ∀ s ∈ l, 0 < s.mass := by
  induction l with
  | nil => simp [massErrors]
  | cons s rest ih =>
    simp only [massErrors, List.append_eq_nil, ih, List.mem_cons]
    constructor
    · rintro ⟨h1, h2⟩ t ht
      rcases ht with rfl | ht
      · exact not_le.mp ((ite_singleton_eq_nil _ _).mp h1)
      · exact h2 t ht
    · intro h
      exact ⟨(ite_singleton_eq_nil _ _).mpr (not_le.mpr (h s (Or.inl rfl))),
        fun t ht => h t (Or.inr ht)⟩

theorem calcErrors_eq_nil_iff (c : Calculation) :
    calcErrors c = [] ↔ calcThresholdPos c := by
  cases c <;> simp [calcErrors, calcThresholdPos, ite_singleton_eq_nil, not_le]

theorem degaussErrors_eq_nil_iff (o : Occupations) :
    degaussErrors o = [] ↔ degaussPos o := by
  cases o <;> simp [degaussErrors, degaussPos, ite_singleton_eq_nil, not_le]

theorem validationErrors_eq_nil_iff (i : Input) :
    validationErrors i = [] ↔
      (0 < i.system.alat ∧ calcThresholdPos i.calculation ∧ 0 < i.system.ecutwfc
        ∧ 0 < i.system.ecutrho ∧ degaussPos i.system.occupations
        ∧ ∀ s ∈ i.species, 0 < s.mass) := by
  simp only [validationErrors, List.append_eq_nil, ite_singleton_eq_nil, not_le,
    calcErrors_eq_nil_iff, degaussErrors_eq_nil_iff, massErrors_eq_nil_iff]
  tauto

theorem validate_ok_iff (i : Input) :
    validate i = .ok () ↔
      (0 < i.system.alat ∧ calcThresholdPos i.calculation ∧ 0 < i.system.ecutwfc
        ∧ 0 < i.system.ecutrho ∧ degaussPos i.system.occupations
        ∧ ∀ s ∈ i.species, 0 < s.mass) := by
  rw [← validationErrors_eq_nil_iff]
  unfold validate
  constructor
  · intro h
    by_cases hc : (validationErrors i).length = 0
    · exact List.length_eq_zero.mp hc
    · rw [if_neg hc] at h
      exact Except.noConfusion h
  · intro h
    rw [if_pos (by rw [h]; rfl)]

theorem validate_eq_error (i : Input) (h : validationErrors i ≠ []) :
    validate i = .error ⟨validationErrors i⟩ := by
  unfold validate
  rw [if_neg (fun hl => h (List.length_eq_zero.mp hl))]

/-- C2: `validate` accumulates without short-circuiting: it succeeds exactly
when every rule holds; an input violating exactly the `alat` and `ecutwfc`
rules yields exactly two errors with the `alat` error first; and any input with
`alat <= 0` yields a non-empty error list containing a lattice-constant error
carrying that very value. -/
theorem c2_validate_accumulation :
    (∀ i : Input, validate i = .ok () ↔
      (0 < i.system.alat ∧ calcThresholdPos i.calculation ∧ 0 < i.system.ecutwfc
        ∧ 0 < i.system.ecutrho ∧ degaussPos i.system.occupations
        ∧ ∀ s ∈ i.species, 0 < s.mass))
    ∧ (∀ i : Input, i.system.alat ≤ 0 → calcThresholdPos i.calculation →
        i.system.ecutwfc ≤ 0 → 0 < i.system.ecutrho → degaussPos i.system.occupations →
        (∀ s ∈ i.species, 0 < s.mass) →
        validate i = .error ⟨[InputError.LatticeConstant i.system.alat,
          InputError.Ecutwfc i.system.ecutwfc]⟩)
    ∧ (∀ i : Input, i.system.alat ≤ 0 →
        ∃ el : ErrorList, validate i = .error el
          ∧ InputError.LatticeConstant i.system.alat ∈ el.errs ∧ el.errs ≠ []) := by
  refine ⟨validate_ok_iff, ?_, ?_⟩
  · intro i halat hthr hwfc hrho hdeg hmass
    have hv : validationErrors i
        = [InputError.LatticeConstant i.system.alat, InputError.Ecutwfc i.system.ecutwfc] := by
      simp only [validationErrors]
      rw [if_pos halat, if_pos hwfc, if_neg (not_le.mpr hrho),
        (calcErrors_eq_nil_iff _).mpr hthr, (degaussErrors_eq_nil_iff _).mpr hdeg,
        (massErrors_eq_nil_iff _).mpr hmass]
      rfl
    rw [validate_eq_error i (by rw [hv]; simp), hv]
  · intro i halat
    have hmem : InputError.LatticeConstant i.system.alat ∈ validationErrors i := by
      simp [validationErrors, halat]
    have hne : validationErrors i ≠ [] := fun h0 => by simp [h0] at hmem
    exact ⟨⟨validationErrors i⟩, validate_eq_error i hne, hmem, hne⟩

/-- A concrete input violating exactly the `alat` and `ecutwfc` rules. -/
def c2wInput : Input :=
  { c1Input with system := { c1Input.system with alat := -1, ecutwfc := -2 } }

/-- Witness for C2: the double violation yields exactly the two errors in
check order. -/
theorem c2_validate_accumulation_witness :
    validate c2wInput
      = .error ⟨[InputError.LatticeConstant (-1), InputError.Ecutwfc (-2)]⟩ :=
  c2_validate_accumulation.2.1 c2wInput (by with_unfolding_all decide)
    (by with_unfolding_all decide) (by with_unfolding_all decide)
    (by with_unfolding_all decide) (by with_unfolding_all decide)
    (by with_unfolding_all decide)

/-- A configuration that satisfies every rule C3 names (positive `alat`,
threshold, `ecutwfc`, `ecutrho`) but carries a species of negative mass. -/
def c3Cex : Input :=
  { c1Input with
    calculation := .Scf 1
    species := [{ label := "Fe", mass := -1, pseudopotential_filename := "Fe.UPF" }] }

/-- C3 counterexample: positive `alat`, threshold, `ecutwfc` and `ecutrho` do
not suffice for `validate` to succeed — a non-positive species mass (checked by
the code but not mentioned by the claim) still fails validation. -/
theorem c3_validate_positive_counterexample :
    0 < c3Cex.system.alat ∧ calcThresholdPos c3Cex.calculation
      ∧ 0 < c3Cex.system.ecutwfc ∧ 0 < c3Cex.system.ecutrho
      ∧ validate c3Cex ≠ .ok () := by
  refine ⟨by with_unfolding_all decide, by with_unfolding_all decide,
    by with_unfolding_all decide, by with_unfolding_all decide, ?_⟩
  have hval : validate c3Cex = Except.error ⟨[InputError.Mass "Fe" (-1)]⟩ := by
    with_unfolding_all rfl
  simp [hval]

/-- C3 as amended: `validate` succeeds when, in addition to positive `alat`,
threshold, `ecutwfc` and `ecutrho`, the smearing width is positive whenever
`Smearing` occupations are chosen and every species mass is positive. -/
theorem c3_validate_positive_amended (i : Input)
    (halat : 0 < i.system.alat) (hthr : calcThresholdPos i.calculation)
    (hwfc : 0 < i.system.ecutwfc) (hrho : 0 < i.system.ecutrho)
    (hdeg : degaussPos i.system.occupations) (hmass : ∀ s ∈ i.species, 0 < s.mass) :
    validate i = .ok () :=
  (validate_ok_iff i).mpr ⟨halat, hthr, hwfc, hrho, hdeg, hmass⟩

/-- Witness for the amended C3 at the concrete scenario configuration. -/
theorem c3_validate_positive_amended_witness : validate c1Input = .ok () :=
  c3_validate_positive_amended c1Input (by with_unfolding_all decide)
    (by with_unfolding_all decide) (by with_unfolding_all decide)
    (by with_unfolding_all decide) (by with_unfolding_all decide)
    (by with_unfolding_all decide)

/-- C4: `make_input_file` validates first — every validation failure is
returned wrapped in the renderer error type with no output text produced; in
particular any input with `ecutrho <= 0` fails this way. -/
theorem c4_render_validates_first :
    (∀ (i : Input) (es : ErrorList), validate i = .error es →
        make_input_file i = .error (SerializeError.Input es))
    ∧ (∀ i : Input, i.system.ecutrho ≤ 0 →
        ∃ es : ErrorList, make_input_file i = .error (SerializeError.Input es)) := by
  constructor
  · intro i es h
    unfold make_input_file
    rw [h]
  · intro i hrho
    have hmem : InputError.Ecutrho i.system.ecutrho ∈ validationErrors i := by
      simp [validationErrors, hrho]
    have hne : validationErrors i ≠ [] := fun h0 => by simp [h0] at hmem
    refine ⟨⟨validationErrors i⟩, ?_⟩
    unfold make_input_file
    rw [validate_eq_error i hne]

/-- The concrete scenario configuration with a negative `ecutrho`. -/
def c4wInput : Input :=
  { c1Input with system := { c1Input.system with ecutrho := -1 } }

/-- Witness for C4: the negative-`ecutrho` configuration fails rendering with
the wrapped validation error. -/
theorem c4_render_validates_first_witness :
    make_input_file c4wInput = .error (SerializeError.Input ⟨[InputError.Ecutrho (-1)]⟩) :=
  c4_render_validates_first.1 c4wInput ⟨[InputError.Ecutrho (-1)]⟩
    (by with_unfolding_all rfl)

/-! ## C6: which numeric fields use exponent notation -/

theorem efield_lines_mem_makeSystemLines (i : Input) (d : Bool) (e : LatticeDirection)
    (emax eop ea : ℚ) (he : i.efield = some (.TeField d e emax eop ea)) :
    ("    edir=" ++ latticeDirectionValue e ++ ",") ∈ makeSystemLines i
    ∧ ("    emaxpos=" ++ fmtF64 emax ++ ",") ∈ makeSystemLines i
    ∧ ("    eopreg=" ++ fmtF64 eop ++ ",") ∈ makeSystemLines i
    ∧ ("    eamp=" ++ fmtExp ea ++ ",") ∈ makeSystemLines i := by
  unfold makeSystemLines
  rw [he]
  refine ⟨?_, ?_, ?_, ?_⟩ <;>
    exact List.mem_append_left _ (List.mem_append_right _ (by simp))

theorem conv_thr_line_mem (i : Input) (c : ℚ) (hc : i.calculation = .Scf c) :
    ("    conv_thr=" ++ fmtExp c ++ ",") ∈ makeElectronsLines i := by
  unfold makeElectronsLines
  rw [hc]
  exact List.mem_append_left _ (List.mem_append_right _ (by simp))

theorem diago_thr_line_mem (i : Input) (d : ℚ) (nb : Option Nat) (ns : Option Bool)
    (hc : i.calculation = .Nscf d nb ns ∨ i.calculation = .Bands d nb ns) :
    ("    diago_thr_init=" ++ fmtExp d ++ ",") ∈ makeElectronsLines i := by
  unfold makeElectronsLines
  rcases hc with hc | hc <;> rw [hc] <;>
    exact List.mem_append_left _ (List.mem_append_right _ (by simp))

/-- C6: field-by-field number formatting. Every scalar numeric field is
rendered through `fmtF64` (the default floating-point text form) except the
convergence threshold of the active calculation (`conv_thr` for Scf,
`diago_thr_init` for Nscf/Bands, rendered inside the electrons group) and
`eamp`, which are rendered through `fmtExp` (exponent notation). Each conjunct
pins the full text of the corresponding line — all four k-point branches
(`Crystal`, `CrystalUniform`, `Automatic`, `CrystalBands`) included — so the
notation of every numeric field is determined. -/
theorem c6_exponent_fields (i : Input) :
    ("    celldm(1)=" ++ fmtF64 i.system.alat ++ ",") ∈ makeSystemLines i
    ∧ ("    ecutwfc=" ++ fmtF64 i.system.ecutwfc ++ ",") ∈ makeSystemLines i
    ∧ ("    ecutrho=" ++ fmtF64 i.system.ecutrho ++ ",") ∈ makeSystemLines i
    ∧ (∀ (d : Bool) (e : LatticeDirection) (emax eop ea : ℚ),
        i.efield = some (.TeField d e emax eop ea) →
          ("    emaxpos=" ++ fmtF64 emax ++ ",") ∈ makeSystemLines i
          ∧ ("    eopreg=" ++ fmtF64 eop ++ ",") ∈ makeSystemLines i
          ∧ ("    eamp=" ++ fmtExp ea ++ ",") ∈ makeSystemLines i)
    ∧ (∀ c : ℚ, i.calculation = .Scf c →
        ("    conv_thr=" ++ fmtExp c ++ ",") ∈ makeElectronsLines i)
    ∧ (∀ (d : ℚ) (nb : Option Nat) (ns : Option Bool),
        (i.calculation = .Nscf d nb ns ∨ i.calculation = .Bands d nb ns) →
          ("    diago_thr_init=" ++ fmtExp d ++ ",") ∈ makeElectronsLines i)
    ∧ (∀ s ∈ i.species,
        (" " ++ s.label ++ " " ++ fmtF64 s.mass ++ " " ++ s.pseudopotential_filename)
          ∈ makeSpeciesLines i)
    ∧ (∀ c ∈ i.atomic_positions.coordinates, c.if_pos = none →
        (" " ++ c.species ++ " " ++ fmtF64 c.r.1 ++ " " ++ fmtF64 c.r.2.1
          ++ " " ++ fmtF64 c.r.2.2) ∈ makePositionsLines i)
    ∧ (∀ c ∈ i.atomic_positions.coordinates, ∀ ip : B3, c.if_pos = some ip →
        (" " ++ c.species ++ " " ++ fmtF64 c.r.1 ++ " " ++ fmtF64 c.r.2.1
          ++ " " ++ fmtF64 c.r.2.2 ++ " " ++ render_bool_list ip) ∈ makePositionsLines i)
    ∧ (∀ cell : Cell, i.system.ibrav = .Free cell →
        makeCellLines i = some
          ["CELL_PARAMETERS " ++ latticeUnitsValue cell.units,
           " " ++ fmtF64 cell.cell.1.1 ++ " " ++ fmtF64 cell.cell.1.2.1
             ++ " " ++ fmtF64 cell.cell.1.2.2,
           " " ++ fmtF64 cell.cell.2.1.1 ++ " " ++ fmtF64 cell.cell.2.1.2.1
             ++ " " ++ fmtF64 cell.cell.2.1.2.2,
           " " ++ fmtF64 cell.cell.2.2.1 ++ " " ++ fmtF64 cell.cell.2.2.2.1
             ++ " " ++ fmtF64 cell.cell.2.2.2.2])
    ∧ (∀ ks : List K4, i.k_points = .Crystal ks →
        makeKPointsLines i = "K_POINTS crystal" :: natToStr ks.length ::
          ks.map (fun kw => fmtF64 kw.1 ++ " " ++ fmtF64 kw.2.1 ++ " " ++ fmtF64 kw.2.2.1
            ++ " " ++ fmtF64 kw.2.2.2))
    ∧ (∀ nk : N3, i.k_points = .CrystalUniform nk →
        makeKPointsLines i = "K_POINTS crystal"
          :: natToStr (generate_uniform_kpoints nk).length ::
          (generate_uniform_kpoints nk).map (fun k =>
            fmtF64 k.1 ++ " " ++ fmtF64 k.2.1 ++ " " ++ fmtF64 k.2.2 ++ " "
              ++ fmtF64 (1 / ((generate_uniform_kpoints nk).length : ℚ))))
    ∧ (∀ (nk : N3) (sk : Option B3), i.k_points = .Automatic nk sk →
        makeKPointsLines i = ["K_POINTS automatic",
          natToStr nk.1 ++ " " ++ natToStr nk.2.1 ++ " " ++ natToStr nk.2.2 ++ " "
            ++ (match sk with
                | some sk => render_bool_list sk
                | none => render_bool_list (false, false, false))])
    ∧ (∀ (np : Nat) (pb : List Q3), i.k_points = .CrystalBands np pb →
        makeKPointsLines i = "K_POINTS crystal_b" :: natToStr pb.length ::
          pb.map (fun k => fmtF64 k.1 ++ " " ++ fmtF64 k.2.1 ++ " " ++ fmtF64 k.2.2
            ++ " " ++ natToStr np)) := by
  refine ⟨mem_makeSystemLines_of_base (by simp), mem_makeSystemLines_of_base (by simp),
    mem_makeSystemLines_of_base (by simp), ?_, ?_, ?_, ?_, ?_, ?_, ?_, ?_, ?_, ?_, ?_⟩
  · intro d e emax eop ea he
    exact ⟨(efield_lines_mem_makeSystemLines i d e emax eop ea he).2.1,
      (efield_lines_mem_makeSystemLines i d e emax eop ea he).2.2.1,
      (efield_lines_mem_makeSystemLines i d e emax eop ea he).2.2.2⟩
  · exact fun c hc => conv_thr_line_mem i c hc
  · exact fun d nb ns hc => diago_thr_line_mem i d nb ns hc
  · intro s hs
    exact List.mem_cons_of_mem _ (List.mem_map_of_mem speciesLine hs)
  · intro c hc hip
    have hl : positionLine c
        = " " ++ c.species ++ " " ++ fmtF64 c.r.1 ++ " " ++ fmtF64 c.r.2.1
          ++ " " ++ fmtF64 c.r.2.2 := by
      unfold positionLine
      rw [hip]
    rw [← hl]
    exact List.mem_cons_of_mem _ (List.mem_map_of_mem positionLine hc)
  · intro c hc ip hip
    have hl : positionLine c
        = " " ++ c.species ++ " " ++ fmtF64 c.r.1 ++ " " ++ fmtF64 c.r.2.1
          ++ " " ++ fmtF64 c.r.2.2 ++ " " ++ render_bool_list ip := by
      unfold positionLine
      rw [hip]
    rw [← hl]
    exact List.mem_cons_of_mem _ (List.mem_map_of_mem positionLine hc)
  · intro cell hb
    unfold makeCellLines
    rw [hb]
    rfl
  · intro ks hk
    unfold makeKPointsLines
    rw [hk]
    rfl
  · intro nk hk
    unfold makeKPointsLines
    rw [hk]
    rfl
  · intro nk sk hk
    unfold makeKPointsLines
    rw [hk]
    rfl
  · intro np pb hk
    unfold makeKPointsLines
    rw [hk]
    rfl

/-- The concrete scenario configuration extended with a sawtooth field. -/
def c6wInput : Input := { c1Input with efield := some (.TeField true .D1 0 0 1) }

/-- Witness for C6: `eamp` and `conv_thr` render in exponent form at a
concrete configuration. -/
theorem c6_exponent_fields_witness :
    ("    eamp=" ++ fmtExp 1 ++ ",") ∈ makeSystemLines c6wInput
    ∧ ("    conv_thr=" ++ fmtExp (1 / 100000000) ++ ",") ∈ makeElectronsLines c6wInput :=
  ⟨((c6_exponent_fields c6wInput).2.2.2.1 true .D1 0 0 1 rfl).2.2,
   (c6_exponent_fields c6wInput).2.2.2.2.1 (1 / 100000000) rfl⟩

/-! ## C7: efield lines are emitted together or not at all -/

/-- The namelist field heads of the lines contributed by `Efield`: two in the
control group, four in the system group. -/
def efieldPrefixes : List String :=
  ["    tefield=", "    dipfield=", "    edir=", "    emaxpos=", "    eopreg=", "    eamp="]

/-- The line does not begin with any efield field head. -/
def noEfieldLine (l : String) : Prop :=
  ∀ p ∈ efieldPrefixes, ¬ (p.data <+: l.data)

/-- A constant line head that is prefix-incomparable with every efield field
head: any line starting with it cannot start with an efield field head. -/
def headSafe (c : String) : Prop :=
  ∀ p ∈ efieldPrefixes, ¬ (c.data <+: p.data) ∧ ¬ (p.data <+: c.data)

theorem not_prefix_append_of_head {p a : List Char} (b : List Char)
    (h1 : ¬ a <+: p) (h2 : ¬ p <+: a) : ¬ p <+: a ++ b := by
  intro h
  rcases List.prefix_or_prefix_of_prefix h (List.prefix_append a b) with h' | h'
  · exact h2 h'
  · exact h1 h'

theorem noEfieldLine_of_headSafe {c : String} (h : headSafe c) {l : String}
    (rest : List Char) (hl : l.data = c.data ++ rest) : noEfieldLine l := by
  intro p hp
  rw [hl]
  exact not_prefix_append_of_head rest (h p hp).1 (h p hp).2

theorem noEfieldLine_head2 (c m t : String) (hc : headSafe c) :
    noEfieldLine (c ++ m ++ t) :=
  noEfieldLine_of_headSafe hc (m.data ++ t.data)
    (by simp [String.data_append, List.append_assoc])

/-- Every element of the list avoids the efield field heads. -/
def allSafe (ls : List String) : Prop := ∀ l ∈ ls, noEfieldLine l

instance (l : String) : Decidable (noEfieldLine l) :=
  inferInstanceAs (Decidable (∀ p ∈ efieldPrefixes, ¬ (p.data <+: l.data)))

instance (c : String) : Decidable (headSafe c) :=
  inferInstanceAs
    (Decidable (∀ p ∈ efieldPrefixes, ¬ (c.data <+: p.data) ∧ ¬ (p.data <+: c.data)))

instance (ls : List String) : Decidable (allSafe ls) :=
  inferInstanceAs (Decidable (∀ l ∈ ls, noEfieldLine l))

theorem allSafe_nil : allSafe [] := fun l hl => absurd hl (List.not_mem_nil l)

theorem allSafe_cons {s : String} {ls : List String} (h1 : noEfieldLine s)
    (h2 : allSafe ls) : allSafe (s :: ls) := by
  intro l hl
  rcases List.mem_cons.mp hl with rfl | hl
  exacts [h1, h2 l hl]

theorem allSafe_append {l1 l2 : List String} (h1 : allSafe l1) (h2 : allSafe l2) :
    allSafe (l1 ++ l2) := by
  intro l hl
  rcases List.mem_append.mp hl with h | h
  exacts [h1 l h, h2 l h]

theorem allSafe_singleton {s : String} (h : noEfieldLine s) : allSafe [s] :=
  allSafe_cons h allSafe_nil

theorem allSafe_optLine {α : Type} {ls : List String} (h : allSafe ls) (o : Option α)
    {f : α → String} (hf : ∀ x, noEfieldLine (f x)) : allSafe (optLine ls o f) := by
  cases o with
  | none => exact h
  | some x => exact allSafe_append h (allSafe_singleton (hf x))

theorem allSafe_push_bool_field {ls : List String} (h : allSafe ls) (name : String)
    (hname : headSafe ("    " ++ name ++ "=")) (b : Option Bool) :
    allSafe (push_bool_field ls name b) := by
  cases b with
  | none => exact h
  | some bb =>
    apply allSafe_append h
    apply allSafe_singleton
    exact noEfieldLine_of_headSafe hname
      (((if bb then ".true." else ".false.") ++ ",").data)
      (by simp [String.data_append, List.append_assoc])

theorem allSafe_makeElectronsLines (i : Input) : allSafe (makeElectronsLines i) := by
  unfold makeElectronsLines
  have h0 : allSafe [" &electrons"] := by decide
  have h1 := allSafe_optLine h0 i.electrons.startingwfc
    (fun x => noEfieldLine_head2 "    startingwfc='" (startingWfcValue x) "'," (by decide))
  have h2 := allSafe_optLine h1 i.electrons.diagonalization
    (fun x => noEfieldLine_head2 "    diagonalization='" (diagonalizationValue x) "',"
      (by decide))
  refine allSafe_append ?_ (by decide)
  rcases i.calculation with c | ⟨d, nb, ns⟩ | ⟨d, nb, ns⟩
  · exact allSafe_append h2
      (allSafe_singleton (noEfieldLine_head2 "    conv_thr=" (fmtExp c) "," (by decide)))
  · exact allSafe_append h2
      (allSafe_singleton (noEfieldLine_head2 "    diago_thr_init=" (fmtExp d) ","
        (by decide)))
  · exact allSafe_append h2
      (allSafe_singleton (noEfieldLine_head2 "    diago_thr_init=" (fmtExp d) ","
        (by decide)))

theorem allSafe_makeSystemLines (i : Input) (he : i.efield = none) :
    allSafe (makeSystemLines i) := by
  unfold makeSystemLines
  rw [he]
  have hl0 : allSafe [" &system",
      "    ibrav=" ++ ibravValue i.system.ibrav ++ ",",
      "    celldm(1)=" ++ fmtF64 i.system.alat ++ ",",
      "    nat=" ++ natToStr i.atomic_positions.coordinates.length ++ ",",
      "    ntyp=" ++ natToStr i.species.length ++ ",",
      "    ecutwfc=" ++ fmtF64 i.system.ecutwfc ++ ",",
      "    ecutrho=" ++ fmtF64 i.system.ecutrho ++ ",",
      "    occupations='" ++ occupationsValue i.system.occupations ++ "',"] := by
    refine allSafe_cons (by decide)
      (allSafe_cons (noEfieldLine_head2 "    ibrav=" _ "," (by decide))
      (allSafe_cons (noEfieldLine_head2 "    celldm(1)=" _ "," (by decide))
      (allSafe_cons (noEfieldLine_head2 "    nat=" _ "," (by decide))
      (allSafe_cons (noEfieldLine_head2 "    ntyp=" _ "," (by decide))
      (allSafe_cons (noEfieldLine_head2 "    ecutwfc=" _ "," (by decide))
      (allSafe_cons (noEfieldLine_head2 "    ecutrho=" _ "," (by decide))
      (allSafe_cons (noEfieldLine_head2 "    occupations='" _ "'," (by decide))
        allSafe_nil)))))))
  refine allSafe_append ?_ (by decide)
  rcases i.system.spin_type with _ | st
  · exact hl0
  · rcases st with _ | _ | so
    · exact allSafe_append hl0 (by decide)
    · exact allSafe_append hl0 (by decide)
    · exact allSafe_push_bool_field (allSafe_append hl0 (by decide)) "lspinorb"
        (by decide) (some so)

/-- Any successful `makeControlLines` result is the efield-dependent tail
appended to a prefix of lines that is free of efield field heads. -/
theorem makeControlLines_ok_decomp (i : Input) (ls : List String)
    (h : makeControlLines i = .ok ls) :
    ∃ lpre : List String, allSafe lpre ∧
      ls = (optLine (match i.efield with
        | some (.TeField dipfield _ _ _ _) =>
          push_bool_field (push_bool_field lpre "tefield" (some true)) "dipfield"
            (some dipfield)
        | none => lpre) i.control.prefix_ (fun p => "    prefix='" ++ p ++ "',"))
        ++ [" /"] := by
  have h0 : allSafe [" &control",
      "    calculation='" ++ calculationValue i.calculation ++ "',"] :=
    allSafe_cons (by decide)
      (allSafe_singleton (noEfieldLine_head2 "    calculation='" _ "'," (by decide)))
  have h1 := allSafe_optLine h0 i.control.restart_mode
    (fun rm => noEfieldLine_head2 "    restart_mode='" (restartModeValue rm) "',"
      (by decide))
  have h2 := allSafe_optLine h1 i.control.disk_io
    (fun d => noEfieldLine_head2 "    disk_io='" (diskIOValue d) "'," (by decide))
  have h3 := allSafe_push_bool_field h2 "wf_collect" (by decide) i.control.wf_collect
  unfold makeControlLines at h
  rcases hps : i.control.pseudo_dir with _ | pd <;> rw [hps] at h
  · rcases hos : i.control.out_dir with _ | od <;> rw [hos] at h
    · simp only [pathField] at h
      injection h with h
      exact ⟨_, h3, h.symm⟩
    · rcases od with ⟨_ | opath⟩
      · simp only [pathField] at h
        exact Except.noConfusion h
      · simp only [pathField] at h
        injection h with h
        refine ⟨_, ?_, h.symm⟩
        exact allSafe_append h3
          (allSafe_singleton (noEfieldLine_head2 ("    " ++ "out_dir" ++ "='") opath "',"
            (by decide)))
  · rcases pd with ⟨_ | ppath⟩
    · simp only [pathField] at h
      exact Except.noConfusion h
    · simp only [pathField] at h
      have h4 := allSafe_append h3
        (allSafe_singleton (noEfieldLine_head2 ("    " ++ "pseudo_dir" ++ "='") ppath "',"
          (by decide)))
      rcases hos : i.control.out_dir with _ | od <;> rw [hos] at h
      · simp only [pathField] at h
        injection h with h
        exact ⟨_, h4, h.symm⟩
      · rcases od with ⟨_ | opath⟩
        · simp only [pathField] at h
          exact Except.noConfusion h
        · simp only [pathField] at h
          injection h with h
          refine ⟨_, ?_, h.symm⟩
          exact allSafe_append h4
            (allSafe_singleton (noEfieldLine_head2 ("    " ++ "out_dir" ++ "='") opath "',"
              (by decide)))

/-- C7 (amended): the efield lines are emitted together or not at all. When
`efield` is `Some(TeField{..})`, the control line list contains the `tefield`
and `dipfield` lines and the system line list contains the `edir`, `emaxpos`,
`eopreg` and `eamp` lines. When `efield` is `None`, no line of the control,
system or electrons namelist groups begins with any efield field head (a
caller-supplied string containing a newline can still make the joined output
contain such a line, as the counterexample shows, so the guarantee is about
the renderer's own line lists). -/
theorem c7_efield_amended (i : Input) :
    (∀ (d : Bool) (e : LatticeDirection) (emax eop ea : ℚ),
      i.efield = some (.TeField d e emax eop ea) →
        (∀ ls, makeControlLines i = .ok ls →
          "    tefield=.true.," ∈ ls
          ∧ ("    dipfield=" ++ (if d then ".true." else ".false.") ++ ",") ∈ ls)
        ∧ ("    edir=" ++ latticeDirectionValue e ++ ",") ∈ makeSystemLines i
        ∧ ("    emaxpos=" ++ fmtF64 emax ++ ",") ∈ makeSystemLines i
        ∧ ("    eopreg=" ++ fmtF64 eop ++ ",") ∈ makeSystemLines i
        ∧ ("    eamp=" ++ fmtExp ea ++ ",") ∈ makeSystemLines i)
    ∧ (i.efield = none →
        (∀ ls, makeControlLines i = .ok ls → allSafe ls)
        ∧ allSafe (makeSystemLines i)
        ∧ allSafe (makeElectronsLines i)) := by
  constructor
  · intro d e emax eop ea he
    refine ⟨?_, (efield_lines_mem_makeSystemLines i d e emax eop ea he).1,
      (efield_lines_mem_makeSystemLines i d e emax eop ea he).2.1,
      (efield_lines_mem_makeSystemLines i d e emax eop ea he).2.2.1,
      (efield_lines_mem_makeSystemLines i d e emax eop ea he).2.2.2⟩
    intro ls hls
    obtain ⟨lpre, -, rfl⟩ := makeControlLines_ok_decomp i ls hls
    rw [he]
    constructor
    · apply List.mem_append_left
      apply mem_optLine
      apply mem_push_bool_field
      exact List.mem_append_right _ (List.mem_singleton.mpr rfl)
    · apply List.mem_append_left
      apply mem_optLine
      exact List.mem_append_right _ (List.mem_singleton.mpr rfl)
  · intro he
    refine ⟨?_, allSafe_makeSystemLines i he, allSafe_makeElectronsLines i⟩
    intro ls hls
    obtain ⟨lpre, hsafe, rfl⟩ := makeControlLines_ok_decomp i ls hls
    rw [he]
    refine allSafe_append ?_ (by decide)
    exact allSafe_optLine hsafe _
      (fun p => noEfieldLine_head2 "    prefix='" p "'," (by decide))

/-- A valid configuration with `efield = None` whose species label embeds a
newline followed by the text of the `tefield` line. -/
def c7Cex : Input :=
  { c1Input with
    calculation := .Scf 1
    species := [{ label := "   tefield=.true.,\nx", mass := 1,
                  pseudopotential_filename := "p" }] }

/-- C7 counterexample: with `efield = None` the rendered output can still
contain the line `    tefield=.true.,` — a species label carrying a newline
injects it through the ATOMIC_SPECIES card — so "none of these lines appears
anywhere in the output" is false as stated. -/
theorem c7_efield_counterexample :
    c7Cex.efield = none ∧ "    tefield=.true.," ∈ outLines c7Cex :=
  ⟨rfl, by with_unfolding_all decide⟩

/-- Witness for the amended C7 at a concrete configuration with a sawtooth
field present. -/
theorem c7_efield_amended_witness :
    "    tefield=.true.," ∈ [" &control", "    calculation='scf',",
      "    tefield=.true.,", "    dipfield=.true.,", " /"]
    ∧ ("    eamp=" ++ fmtExp 1 ++ ",") ∈ makeSystemLines c6wInput :=
  ⟨(((c7_efield_amended c6wInput).1 true .D1 0 0 1 rfl).1
      [" &control", "    calculation='scf',", "    tefield=.true.,",
       "    dipfield=.true.,", " /"] (by rfl)).1,
   ((c7_efield_amended c6wInput).1 true .D1 0 0 1 rfl).2.2.2.2⟩
